import Mathlib

set_option maxHeartbeats 1000000

namespace JobsMcpProxy

/-!
Shallow embedding of the message-proxying engine of the repository
(`proxyServer` in the mcp-proxy source file), of the client-identity
resolver (`src/client-detector.ts`) and of the version extractor
(`src/version-extractor.ts`).

Effectful registration on the two peers is modelled as the construction of
a `Registry` value listing, per side, the (schema, handler) pairs that
`setRequestHandler` / `setNotificationHandler` would install, in execution
order.  A handler is a pure function that, besides its returned
`Except`-value (a resolved or rejected promise), reports the exact list of
upstream method invocations it performs.
-/

/-- The upstream `Client` methods used by `proxyServer`. -/
inductive UpMethod : Type
  | callTool
  | listTools
  | getPrompt
  | listPrompts
  | listResources
  | listResourceTemplates
  | readResource
  | subscribeResource
  | unsubscribeResource
  | complete
  | notification
  deriving DecidableEq, Repr

/-- The request/notification schemas imported and registered by `proxyServer`. -/
inductive Schema : Type
  | callToolRequest
  | listToolsRequest
  | getPromptRequest
  | listPromptsRequest
  | listResourcesRequest
  | listResourceTemplatesRequest
  | readResourceRequest
  | subscribeRequest
  | unsubscribeRequest
  | completeRequest
  | loggingMessageNotification
  | resourceUpdatedNotification
  deriving DecidableEq, Repr

/-- The nested `resources` capability object: `subscribe` is its only field
read by the engine (`serverCapabilities?.resources.subscribe`); an absent
field is falsy, i.e. `false`. -/
structure ResourcesCapability : Type where
  subscribe : Bool
  deriving DecidableEq, Repr

/-- The `ServerCapabilities` descriptor as read by the engine: each of
`logging`, `prompts`, `tools` is only tested for truthiness (presence);
`resources` is kept as an option since its `subscribe` sub-field is read. -/
structure ServerCapabilities : Type where
  logging : Bool
  prompts : Bool
  resources : Option ResourcesCapability
  tools : Bool
  deriving DecidableEq, Repr

/-- `serverCapabilities?.logging`: optional chaining on a possibly nullish
descriptor, then truthiness of the field. -/
def hasLogging : Option ServerCapabilities → Bool
  | some c => c.logging
  | none => false

/-- `serverCapabilities?.prompts`. -/
def hasPrompts : Option ServerCapabilities → Bool
  | some c => c.prompts
  | none => false

/-- `serverCapabilities?.tools`. -/
def hasTools : Option ServerCapabilities → Bool
  | some c => c.tools
  | none => false

/-- `serverCapabilities?.resources`: the resources capability object, when
present. -/
def resourcesCap : Option ServerCapabilities → Option ResourcesCapability
  | some c => c.resources
  | none => none

/-- An upstream peer: one method body per method name.  `P` is the type of
parameter objects, `R` of resolved values, `E` of rejection errors. -/
abbrev MCPClient (P R E : Type) := UpMethod → P → Except E R

/-- The downstream peer surface used by the engine's client-side logging
handler: its `notification` method. -/
structure MCPServer (P R E : Type) where
  notification : P → Except E R

/-- A request argument object; the engine only reads `args.params`. -/
structure ReqArgs (P : Type) where
  params : P

/-- One recorded upstream method invocation: which client object was
called, which method, and with which argument. -/
structure Invocation (P R E : Type) where
  target : MCPClient P R E
  method : UpMethod
  arg : P

/-- The observable behaviour of one handler invocation: the upstream calls
it performs, in order, and the value/error its returned promise settles
with. -/
structure HandlerRun (P R E : Type) where
  calls : List (Invocation P R E)
  result : Except E R

/-- `const getCurrentClient = () => getClient?.() || client;`
`W` is an abstract call-time world: `getClient` may answer differently at
different invocation times, and a falsy answer (`undefined`/`null`) is
`none`. -/
def getCurrentClient {W P R E : Type} (client : MCPClient P R E)
    (getClient : Option (W → Option (MCPClient P R E))) (w : W) :
    MCPClient P R E :=
  match getClient with
  | none => client
  | some f =>
    match f w with
    | none => client
    | some c => c

/-- The request-forwarding closure registered for each request schema:
`async (args) => { return getCurrentClient().<method>(args.params); }`.
The resolver runs at invocation time `w`, one upstream call is made with
`args.params`, and its outcome is returned unchanged. -/
def fwdHandler {W P R E : Type} (client : MCPClient P R E)
    (getClient : Option (W → Option (MCPClient P R E))) (m : UpMethod) :
    W → ReqArgs P → HandlerRun P R E := fun w args =>
  { calls := [⟨getCurrentClient client getClient w, m, args.params⟩],
    result := getCurrentClient client getClient w m args.params }

/-- The notification-forwarding closure registered on the downstream server
(for logging and resource-updated):
`async (args) => { return getCurrentClient().notification(args); }`. -/
def notifFwdHandler {W P R E : Type} (client : MCPClient P R E)
    (getClient : Option (W → Option (MCPClient P R E))) :
    W → P → HandlerRun P R E := fun w args =>
  { calls := [⟨getCurrentClient client getClient w, UpMethod.notification, args⟩],
    result := getCurrentClient client getClient w UpMethod.notification args }

/-- The handlers installed by one `proxyServer` run, per registration
surface, in registration order. -/
structure Registry (W P R E : Type) where
  serverRequestHandlers : List (Schema × (W → ReqArgs P → HandlerRun P R E))
  serverNotificationHandlers : List (Schema × (W → P → HandlerRun P R E))
  clientNotificationHandlers : List (Schema × (P → Except E R))

/-- The wiring step of `proxyServer({client, getClient, server,
serverCapabilities})`: each guarded block contributes its registrations, in
source order (logging, prompts, resources incl. subscription sub-block,
tools, then the unconditional complete handler). -/
def proxyServer {W P R E : Type} (client : MCPClient P R E)
    (getClient : Option (W → Option (MCPClient P R E)))
    (server : MCPServer P R E)
    (serverCapabilities : Option ServerCapabilities) : Registry W P R E :=
  { serverRequestHandlers :=
      (if hasPrompts serverCapabilities then
        [(Schema.getPromptRequest, fwdHandler client getClient UpMethod.getPrompt),
         (Schema.listPromptsRequest, fwdHandler client getClient UpMethod.listPrompts)]
      else []) ++
      (match resourcesCap serverCapabilities with
       | some rc =>
         [(Schema.listResourcesRequest, fwdHandler client getClient UpMethod.listResources),
          (Schema.listResourceTemplatesRequest,
            fwdHandler client getClient UpMethod.listResourceTemplates),
          (Schema.readResourceRequest, fwdHandler client getClient UpMethod.readResource)] ++
         (if rc.subscribe then
           [(Schema.subscribeRequest, fwdHandler client getClient UpMethod.subscribeResource),
            (Schema.unsubscribeRequest, fwdHandler client getClient UpMethod.unsubscribeResource)]
          else [])
       | none => []) ++
      (if hasTools serverCapabilities then
        [(Schema.callToolRequest, fwdHandler client getClient UpMethod.callTool),
         (Schema.listToolsRequest, fwdHandler client getClient UpMethod.listTools)]
      else []) ++
      [(Schema.completeRequest, fwdHandler client getClient UpMethod.complete)],
    serverNotificationHandlers :=
      (if hasLogging serverCapabilities then
        [(Schema.loggingMessageNotification, notifFwdHandler client getClient)]
      else []) ++
      (match resourcesCap serverCapabilities with
       | some rc =>
         if rc.subscribe then
           [(Schema.resourceUpdatedNotification, notifFwdHandler client getClient)]
         else []
       | none => []),
    clientNotificationHandlers :=
      if hasLogging serverCapabilities then
        [(Schema.loggingMessageNotification, fun args => server.notification args)]
      else [] }

/-- The upstream method a given downstream request schema forwards to;
`none` for the two notification schemas. -/
def methodOf : Schema → Option UpMethod
  | .callToolRequest => some .callTool
  | .listToolsRequest => some .listTools
  | .getPromptRequest => some .getPrompt
  | .listPromptsRequest => some .listPrompts
  | .listResourcesRequest => some .listResources
  | .listResourceTemplatesRequest => some .listResourceTemplates
  | .readResourceRequest => some .readResource
  | .subscribeRequest => some .subscribeResource
  | .unsubscribeRequest => some .unsubscribeResource
  | .completeRequest => some .complete
  | .loggingMessageNotification => none
  | .resourceUpdatedNotification => none

/-! ## Client identity resolver (`src/client-detector.ts`)

The `find-process` collaborator and `identifyClientFromProcess` perform
I/O, so they enter the embedding as behaviours: `lookup pid` is the result
of `findProcess("pid", pid)` (`Except.error` models a thrown lookup
error), and `identify p` the result of `identifyClientFromProcess(p)`
(`Except.error` models a thrown identification/extraction error).  The
proxy's own package name/version (`PROXY_NAME`, `PROXY_VERSION`, read from
package.json at startup) are passed in as `pn`/`pv`. -/

/-- A `ProcessInfo` record as used by the detector; a missing `ppid` is
falsy, modelled as `0`. -/
structure ProcessInfo : Type where
  cmd : String
  name : String
  pid : Nat
  ppid : Nat
  deriving DecidableEq, Repr

/-- A `ClientInfo` identity `{name, version}`. -/
structure ClientInfo : Type where
  name : String
  version : String
  deriving DecidableEq, Repr

/-- The default identity `{name: PROXY_NAME, version: PROXY_VERSION}`. -/
def defaultIdentity (pn pv : String) : ClientInfo :=
  { name := pn, version := pv }

/-- `const MAX_DEPTH = 5`. -/
def MAX_DEPTH : Nat := 5

/-- Whether `pat` occurs as a contiguous run inside `s`
(JavaScript `String.prototype.includes`). -/
def listHasInfix (pat : List Char) : List Char → Bool
  | [] => pat.isEmpty
  | c :: rest => pat.isPrefixOf (c :: rest) || listHasInfix pat rest

/-- `s.includes(pat)`. -/
def strIncludes (s pat : String) : Bool :=
  listHasInfix pat.data s.data

/-- `s.toLowerCase()` (ASCII lowering, which is all the detector's fixed
patterns need). -/
def lowerStr (s : String) : String :=
  String.mk (s.data.map Char.toLower)

/-- The fixed denylist of intermediary process names. -/
def intermediaryNames : List String :=
  ["npm", "npx", "yarn", "pnpm", "bun", "node", "deno",
   "sh", "bash", "zsh", "fish",
   "launchd", "systemd", "init", "exec", "spawn"]

/-- `isIntermediaryProcess`: case-insensitive substring match of the name
against the denylist, or a package-runner invocation pattern in the
command line. -/
def isIntermediaryProcess (p : ProcessInfo) : Bool :=
  let lowerName := lowerStr p.name
  if intermediaryNames.any (fun inter => strIncludes lowerName inter) then
    true
  else
    let lowerCmd := lowerStr p.cmd
    strIncludes lowerCmd ("npm exec") ||
    strIncludes lowerCmd ("npx ") ||
    strIncludes lowerCmd ("yarn exec") ||
    strIncludes lowerCmd ("pnpm exec")

/-- `findRealClient(currentPid, depth)`: the bounded process-tree walk.
The `try`/`catch` wrapping the body maps a thrown lookup or
identification error to the default identity; `processes[0]` is the first
record of a non-empty answer; an intermediary with no parent pid stops
with the default; otherwise the walk recurses at `ppid` with `depth + 1`. -/
def findRealClient (pn pv : String)
    (lookup : Nat → Except String (List ProcessInfo))
    (identify : ProcessInfo → Except String ClientInfo)
    (currentPid : Nat) (depth : Nat) : ClientInfo :=
  if h : MAX_DEPTH ≤ depth then defaultIdentity pn pv
  else
    match lookup currentPid with
    | .error _ => defaultIdentity pn pv
    | .ok [] => defaultIdentity pn pv
    | .ok (currentProcess :: _) =>
      if isIntermediaryProcess currentProcess then
        if currentProcess.ppid = 0 then defaultIdentity pn pv
        else findRealClient pn pv lookup identify currentProcess.ppid (depth + 1)
      else
        match identify currentProcess with
        | .error _ => defaultIdentity pn pv
        | .ok info => info
termination_by MAX_DEPTH - depth
decreasing_by
  simp only [MAX_DEPTH] at h ⊢
  omega

/-- The number of `findProcess` lookups a `findRealClient` walk performs
(one per non-depth-exhausted step, including a lookup that throws). -/
def findRealClientLookups (lookup : Nat → Except String (List ProcessInfo))
    (currentPid : Nat) (depth : Nat) : Nat :=
  if h : MAX_DEPTH ≤ depth then 0
  else
    match lookup currentPid with
    | .error _ => 1
    | .ok [] => 1
    | .ok (currentProcess :: _) =>
      if isIntermediaryProcess currentProcess then
        if currentProcess.ppid = 0 then 1
        else 1 + findRealClientLookups lookup currentProcess.ppid (depth + 1)
      else 1
termination_by MAX_DEPTH - depth
decreasing_by
  simp only [MAX_DEPTH] at h ⊢
  omega

/-- `extractClientInfoFromParent`: a falsy parent pid (modelled `0`) gives
the default identity immediately; otherwise the walk starts at the parent
pid with depth `0`. -/
def extractClientInfoFromParent (pn pv : String)
    (lookup : Nat → Except String (List ProcessInfo))
    (identify : ProcessInfo → Except String ClientInfo)
    (parentPid : Nat) : ClientInfo :=
  if parentPid = 0 then defaultIdentity pn pv
  else findRealClient pn pv lookup identify parentPid 0

/-! ## Version extractor (`src/version-extractor.ts`) -/

/-- The `source` tag of a `VersionExtractionResult`. -/
inductive VersionSource : Type
  | executable
  | plist
  | fallback
  deriving DecidableEq, Repr

/-- `VersionExtractionResult {source, error?, version?}`. -/
structure VersionExtractionResult : Type where
  source : VersionSource
  error : Option String := none
  version : Option String := none
  deriving DecidableEq, Repr

/-- `VersionExtractor.extractVersion`: dispatch on `process.platform`.
The three platform strategies do file/format I/O and enter as behaviours
(`Except.error e` models a throw with message `e`); the surrounding
`try`/`catch` converts any throw into a fallback result carrying the
message, and any other platform immediately gets the unsupported-platform
fallback. -/
def extractVersion (platform : String)
    (macExtract winExtract linuxExtract : Except String VersionExtractionResult) :
    VersionExtractionResult :=
  let body : Except String VersionExtractionResult :=
    if platform = "darwin" then macExtract
    else if platform = "win32" then winExtract
    else if platform = "linux" then linuxExtract
    else Except.ok { source := VersionSource.fallback,
                     error := some ("Unsupported platform: " ++ platform) }
  match body with
  | .ok r => r
  | .error e => { source := VersionSource.fallback, error := some e }

/-! ## Command-line version parsing (`extractVersionFromCommand`)

The four patterns
`--version[=\s]+([0-9]+\.[0-9]+\.[0-9]+)`, `-v[=\s]+(...)`,
`version[=:\s]+(...)`, `([0-9]+\.[0-9]+\.[0-9]+)` (all with the `i` flag)
are embedded as left-to-right scanners.  Greedy matching of `[0-9]+` and
of the separator classes is exact maximal munch here, since a digit run
can only stop at a non-digit and a separator run at a non-separator, so
no backtracking inside a match attempt can succeed where maximal munch
fails; a failed attempt advances the start position by one character,
exactly as the regex engine does. -/

/-- The whitespace characters of the regex class `\s` that can occur in a
process command line (the detector's patterns only ever use a space). -/
def wsChars : List Char :=
  [' ', '\t', '\n', '\r', '\x0b', '\x0c']

/-- The class `[=\s]`. -/
def eqWsSep (c : Char) : Bool :=
  c == '=' || wsChars.contains c

/-- The class `[=:\s]`. -/
def eqColonWsSep (c : Char) : Bool :=
  c == '=' || c == ':' || wsChars.contains c

/-- Match `([0-9]+\.[0-9]+\.[0-9]+)` at the head of `s`, returning the
captured characters. -/
def semverAt (s : List Char) : Option (List Char) :=
  let fst := s.span Char.isDigit
  if fst.1.isEmpty then none
  else
    match fst.2 with
    | '.' :: r2 =>
      let snd := r2.span Char.isDigit
      if snd.1.isEmpty then none
      else
        match snd.2 with
        | '.' :: r4 =>
          let thd := r4.span Char.isDigit
          if thd.1.isEmpty then none
          else some (fst.1 ++ '.' :: snd.1 ++ '.' :: thd.1)
        | _ => none
    | _ => none

/-- Case-insensitive literal prefix test (the pattern literal is given in
lowercase, the subject character is lowered, matching the `i` flag). -/
def ciIsPrefixOf : List Char → List Char → Bool
  | [], _ => true
  | _ :: _, [] => false
  | pc :: ps, c :: cs => (pc == c.toLower) && ciIsPrefixOf ps cs

/-- Leftmost match of `<lit><sep>+<semver>`: at each start position try
the case-insensitive literal, then one-or-more separator characters, then
a captured semver; on failure advance one position. -/
def litSepSemver (lit : List Char) (sep : Char → Bool) : List Char → Option (List Char)
  | [] => none
  | c :: rest =>
    match (if ciIsPrefixOf lit (c :: rest) then
             let spanned := ((c :: rest).drop lit.length).span sep
             if spanned.1.isEmpty then none else semverAt spanned.2
           else none) with
    | some v => some v
    | none => litSepSemver lit sep rest

/-- Leftmost bare `([0-9]+\.[0-9]+\.[0-9]+)` anywhere in the string. -/
def findBareSemver : List Char → Option (List Char)
  | [] => none
  | c :: rest =>
    match semverAt (c :: rest) with
    | some v => some v
    | none => findBareSemver rest

/-- `extractVersionFromCommand(cmd)`: the `versionPatterns` array is tried
in order and the first match's captured group is returned. -/
def extractVersionFromCommand (cmd : String) : Option String :=
  let s := cmd.data
  match litSepSemver ("--version".data) eqWsSep s with
  | some v => some (String.mk v)
  | none =>
    match litSepSemver ("-v".data) eqWsSep s with
    | some v => some (String.mk v)
    | none =>
      match litSepSemver ("version".data) eqColonWsSep s with
      | some v => some (String.mk v)
      | none => (findBareSemver s).map String.mk

/-! ## Concrete peers, behaviours and descriptors used by the closed
witness and counterexample statements -/

/-- A concrete upstream peer echoing its `Nat` parameter. -/
def clientW : MCPClient Nat Nat String := fun _ p => Except.ok p

/-- A second concrete upstream peer, distinguishable from `clientW`. -/
def clientW2 : MCPClient Nat Nat String := fun _ p => Except.ok (p + 100)

/-- A concrete upstream peer whose every method rejects. -/
def clientErr : MCPClient Nat Nat String := fun _ _ => Except.error "upstream boom"

/-- A concrete downstream peer. -/
def serverW : MCPServer Nat Nat String := ⟨fun _ => Except.ok 0⟩

/-- A capability descriptor with every capability enabled and
`resources.subscribe` true. -/
def capsFull : Option ServerCapabilities :=
  some { logging := true, prompts := true, resources := some ⟨true⟩, tools := true }

/-- A descriptor with only subscribable resources. -/
def capsSubOnly : Option ServerCapabilities :=
  some { logging := false, prompts := false, resources := some ⟨true⟩, tools := false }

/-- A concrete process record for an intermediary whose parent is itself:
a cyclic process chain. -/
def procNpmCyc : ProcessInfo :=
  { cmd := "npm exec foo", name := "npm", pid := 41, ppid := 41 }

/-- A lookup behaviour realizing the cyclic chain: every pid resolves to
`procNpmCyc`. -/
def lookupCyc : Nat → Except String (List ProcessInfo) :=
  fun _ => Except.ok [procNpmCyc]

/-- An identification behaviour that always throws. -/
def identifyThrow : ProcessInfo → Except String ClientInfo :=
  fun _ => Except.error "identify boom"

/-- A lookup behaviour that always throws. -/
def lookupThrow : Nat → Except String (List ProcessInfo) :=
  fun _ => Except.error "lookup boom"

/-- A non-intermediary concrete process record. -/
def procApp : ProcessInfo :=
  { cmd := "/usr/lib/firefox/firefox", name := "firefox", pid := 7, ppid := 1 }

/-- A lookup behaviour returning an intermediary with a missing (falsy)
parent pid. -/
def lookupNoParent : Nat → Except String (List ProcessInfo) :=
  fun _ => Except.ok [{ cmd := "npm exec foo", name := "npm", pid := 9, ppid := 0 }]

/-- A lookup behaviour returning the non-intermediary `procApp`. -/
def lookupApp : Nat → Except String (List ProcessInfo) :=
  fun _ => Except.ok [procApp]

/-- A lookup behaviour that finds no process. -/
def lookupEmpty : Nat → Except String (List ProcessInfo) :=
  fun _ => Except.ok []

/-! ## Shared structural lemmas about the registries -/

/-- Every request handler `proxyServer` ever registers is the forwarding
closure for the upstream method matching its schema. -/
lemma serverRequestHandlers_spec {W P R E : Type} (client : MCPClient P R E)
    (getClient : Option (W → Option (MCPClient P R E)))
    (server : MCPServer P R E) (serverCapabilities : Option ServerCapabilities) :
    ∀ x ∈ (proxyServer client getClient server serverCapabilities).serverRequestHandlers,
      ∃ m, methodOf x.1 = some m ∧ x.2 = fwdHandler client getClient m := by
  intro x hmem
  rcases serverCapabilities with _ | ⟨l, p, (_ | ⟨⟨sub⟩⟩), t⟩
  · simp [proxyServer, hasPrompts, hasTools, resourcesCap] at hmem
    subst hmem
    exact ⟨_, rfl, rfl⟩
  · cases p <;> cases t <;>
      (simp [proxyServer, hasPrompts, hasTools, resourcesCap] at hmem;
       repeat' rcases hmem with rfl | hmem) <;>
      exact ⟨_, rfl, rfl⟩
  · cases p <;> cases t <;> cases sub <;>
      (simp [proxyServer, hasPrompts, hasTools, resourcesCap] at hmem;
       repeat' rcases hmem with rfl | hmem) <;>
      exact ⟨_, rfl, rfl⟩

/-- Every notification handler `proxyServer` registers on the downstream
server is the notification-forwarding closure toward the upstream. -/
lemma serverNotificationHandlers_spec {W P R E : Type} (client : MCPClient P R E)
    (getClient : Option (W → Option (MCPClient P R E)))
    (server : MCPServer P R E) (serverCapabilities : Option ServerCapabilities) :
    ∀ x ∈ (proxyServer client getClient server serverCapabilities).serverNotificationHandlers,
      x.2 = notifFwdHandler client getClient := by
  intro x hmem
  rcases serverCapabilities with _ | ⟨l, p, (_ | ⟨⟨sub⟩⟩), t⟩
  · simp [proxyServer, hasLogging, resourcesCap] at hmem
  · cases l <;>
      (simp [proxyServer, hasLogging, resourcesCap] at hmem;
       repeat' rcases hmem with rfl | hmem) <;>
      rfl
  · cases l <;> cases sub <;>
      (simp [proxyServer, hasLogging, resourcesCap] at hmem;
       repeat' rcases hmem with rfl | hmem) <;>
      rfl

/-- The walk performs at most `MAX_DEPTH - depth` lookups from `depth`. -/
lemma findRealClientLookups_le (lookup : Nat → Except String (List ProcessInfo)) :
    ∀ (fuel pid depth : Nat), MAX_DEPTH - depth ≤ fuel →
      findRealClientLookups lookup pid depth ≤ MAX_DEPTH - depth := by
  intro fuel
  induction fuel with
  | zero =>
    intro pid depth hf
    have hd : MAX_DEPTH ≤ depth := by omega
    rw [findRealClientLookups]
    simp [hd]
  | succ n ih =>
    intro pid depth hf
    rw [findRealClientLookups]
    split
    · simp
    · rename_i hd
      rcases hl : lookup pid with e | (_ | ⟨p, l⟩)
      · show 1 ≤ MAX_DEPTH - depth
        omega
      · show 1 ≤ MAX_DEPTH - depth
        omega
      · show (if isIntermediaryProcess p = true then
            if p.ppid = 0 then 1 else 1 + findRealClientLookups lookup p.ppid (depth + 1)
          else 1) ≤ MAX_DEPTH - depth
        split
        · split
          · omega
          · have hrec := ih p.ppid (depth + 1) (by omega)
            omega
        · omega

/-! ## Claim theorems -/

/-- Claim C1, counterexample: with `{resources: {subscribe: true}}` and no
logging, `proxyServer` registers the resource-updated notification handler
on the downstream server and registers nothing on the upstream client, so
the claim's placement (upstream only, never downstream, for non-logging
capabilities) is false on the code. -/
theorem resourceUpdated_not_upstream_cex :
    Schema.resourceUpdatedNotification ∉
      ((proxyServer (W := Unit) clientW none serverW capsSubOnly).clientNotificationHandlers.map
        Prod.fst) ∧
    Schema.resourceUpdatedNotification ∈
      ((proxyServer (W := Unit) clientW none serverW capsSubOnly).serverNotificationHandlers.map
        Prod.fst) := by
  constructor <;> decide

/-- Claim C1 (amended): when `resources.subscribe` is true, the
"resource updated" notification handler is registered on the downstream
server, and it forwards the notification to the (call-time-resolved)
upstream peer via its `notification` method; the upstream client receives
notification handlers only for logging. -/
theorem resourceUpdated_downstream_wiring {W P R E : Type}
    (client : MCPClient P R E) (getClient : Option (W → Option (MCPClient P R E)))
    (server : MCPServer P R E) (caps : Option ServerCapabilities)
    (rc : ResourcesCapability) (hres : resourcesCap caps = some rc)
    (hsub : rc.subscribe = true) :
    (Schema.resourceUpdatedNotification, notifFwdHandler client getClient) ∈
      (proxyServer client getClient server caps).serverNotificationHandlers ∧
    (∀ (w : W) (args : P),
      (notifFwdHandler client getClient w args).calls =
        [⟨getCurrentClient client getClient w, UpMethod.notification, args⟩] ∧
      (notifFwdHandler client getClient w args).result =
        getCurrentClient client getClient w UpMethod.notification args) ∧
    (proxyServer client getClient server caps).clientNotificationHandlers.map Prod.fst =
      (if hasLogging caps then [Schema.loggingMessageNotification] else []) := by
  rcases caps with _ | ⟨l, p, r, t⟩
  · simp [resourcesCap] at hres
  · simp only [resourcesCap] at hres
    subst hres
    refine ⟨?_, fun w args => ⟨rfl, rfl⟩, ?_⟩
    · cases l <;> simp [proxyServer, resourcesCap, hasLogging, hsub]
    · cases l <;> simp [proxyServer, hasLogging]

/-- Claim C1 witness: the amended statement at a concrete wiring. -/
theorem resourceUpdated_downstream_wiring_witness :
    (Schema.resourceUpdatedNotification, notifFwdHandler clientW (none : Option (Unit → Option (MCPClient Nat Nat String)))) ∈
      (proxyServer (W := Unit) clientW none serverW capsSubOnly).serverNotificationHandlers ∧
    (∀ (w : Unit) (args : Nat),
      (notifFwdHandler clientW (none : Option (Unit → Option (MCPClient Nat Nat String))) w args).calls =
        [⟨getCurrentClient clientW none w, UpMethod.notification, args⟩] ∧
      (notifFwdHandler clientW (none : Option (Unit → Option (MCPClient Nat Nat String))) w args).result =
        getCurrentClient clientW none w UpMethod.notification args) ∧
    (proxyServer (W := Unit) clientW none serverW capsSubOnly).clientNotificationHandlers.map Prod.fst =
      (if hasLogging capsSubOnly then [Schema.loggingMessageNotification] else []) :=
  resourceUpdated_downstream_wiring clientW none serverW capsSubOnly ⟨true⟩ rfl rfl

/-- Claim C2: for every capability descriptor, `proxyServer` registers
exactly the schema lists implied by the wiring rules — per surface, in
registration order — and no schema is registered twice on any surface. -/
theorem proxyServer_handler_sets_exact {W P R E : Type} (client : MCPClient P R E)
    (getClient : Option (W → Option (MCPClient P R E)))
    (server : MCPServer P R E) (caps : Option ServerCapabilities) :
    (proxyServer client getClient server caps).serverRequestHandlers.map Prod.fst =
      ((if hasPrompts caps then [Schema.getPromptRequest, Schema.listPromptsRequest] else []) ++
       (match resourcesCap caps with
        | some rc =>
          [Schema.listResourcesRequest, Schema.listResourceTemplatesRequest,
           Schema.readResourceRequest] ++
          (if rc.subscribe then [Schema.subscribeRequest, Schema.unsubscribeRequest] else [])
        | none => []) ++
       (if hasTools caps then [Schema.callToolRequest, Schema.listToolsRequest] else []) ++
       [Schema.completeRequest]) ∧
    (proxyServer client getClient server caps).serverNotificationHandlers.map Prod.fst =
      ((if hasLogging caps then [Schema.loggingMessageNotification] else []) ++
       (match resourcesCap caps with
        | some rc => if rc.subscribe then [Schema.resourceUpdatedNotification] else []
        | none => [])) ∧
    (proxyServer client getClient server caps).clientNotificationHandlers.map Prod.fst =
      (if hasLogging caps then [Schema.loggingMessageNotification] else []) ∧
    ((proxyServer client getClient server caps).serverRequestHandlers.map Prod.fst).Nodup ∧
    ((proxyServer client getClient server caps).serverNotificationHandlers.map Prod.fst).Nodup ∧
    ((proxyServer client getClient server caps).clientNotificationHandlers.map Prod.fst).Nodup := by
  rcases caps with _ | ⟨l, p, (_ | ⟨⟨sub⟩⟩), t⟩
  · exact ⟨rfl, rfl, rfl, by simp [proxyServer, hasPrompts, hasTools, resourcesCap, hasLogging],
      by simp [proxyServer, hasPrompts, hasTools, resourcesCap, hasLogging],
      by simp [proxyServer, hasPrompts, hasTools, resourcesCap, hasLogging]⟩
  · cases l <;> cases p <;> cases t <;>
      exact ⟨rfl, rfl, rfl, by simp [proxyServer, hasPrompts, hasTools, resourcesCap, hasLogging],
        by simp [proxyServer, hasPrompts, hasTools, resourcesCap, hasLogging],
        by simp [proxyServer, hasPrompts, hasTools, resourcesCap, hasLogging]⟩
  · cases l <;> cases p <;> cases t <;> cases sub <;>
      exact ⟨rfl, rfl, rfl, by simp [proxyServer, hasPrompts, hasTools, resourcesCap, hasLogging],
        by simp [proxyServer, hasPrompts, hasTools, resourcesCap, hasLogging],
        by simp [proxyServer, hasPrompts, hasTools, resourcesCap, hasLogging]⟩

/-- Claim C3: every registered downstream request handler, invoked with a
request whose parameter object is `args.params`, performs exactly one
upstream call — to the method matching its schema, with `args.params`
unmodified — and returns exactly the value that call resolved to. -/
theorem proxyServer_request_forwarding {W P R E : Type} (client : MCPClient P R E)
    (getClient : Option (W → Option (MCPClient P R E)))
    (server : MCPServer P R E) (caps : Option ServerCapabilities)
    (s : Schema) (h : W → ReqArgs P → HandlerRun P R E)
    (hmem : (s, h) ∈ (proxyServer client getClient server caps).serverRequestHandlers)
    (m : UpMethod) (hm : methodOf s = some m) :
    ∀ (w : W) (args : ReqArgs P),
      (h w args).calls = [⟨getCurrentClient client getClient w, m, args.params⟩] ∧
      (h w args).result = getCurrentClient client getClient w m args.params := by
  obtain ⟨m', hm', he⟩ :=
    serverRequestHandlers_spec client getClient server caps (s, h) hmem
  rw [hm] at hm'
  obtain rfl := Option.some.inj hm'
  subst he
  exact fun w args => ⟨rfl, rfl⟩

/-- Claim C3 witness: the call-tool handler wired by `capsFull`, invoked
with parameter `7`, calls the upstream `callTool` with `7` and returns its
result `Except.ok 7`. -/
theorem proxyServer_request_forwarding_witness :
    (fwdHandler clientW (none : Option (Unit → Option (MCPClient Nat Nat String)))
        UpMethod.callTool () ⟨7⟩).calls =
      [⟨getCurrentClient clientW none (), UpMethod.callTool, 7⟩] ∧
    (fwdHandler clientW (none : Option (Unit → Option (MCPClient Nat Nat String)))
        UpMethod.callTool () ⟨7⟩).result =
      getCurrentClient clientW none () UpMethod.callTool 7 :=
  proxyServer_request_forwarding clientW none serverW capsFull
    Schema.callToolRequest _ (by simp [proxyServer, capsFull, hasPrompts, hasTools, resourcesCap])
    UpMethod.callTool rfl () ⟨7⟩

/-- Claim C4: if the at-call-time upstream method rejects with error `e`,
the registered downstream handler's returned promise rejects with that
identical `e`. -/
theorem proxyServer_error_propagation {W P R E : Type} (client : MCPClient P R E)
    (getClient : Option (W → Option (MCPClient P R E)))
    (server : MCPServer P R E) (caps : Option ServerCapabilities)
    (s : Schema) (h : W → ReqArgs P → HandlerRun P R E)
    (hmem : (s, h) ∈ (proxyServer client getClient server caps).serverRequestHandlers)
    (m : UpMethod) (hm : methodOf s = some m) :
    ∀ (w : W) (args : ReqArgs P) (e : E),
      getCurrentClient client getClient w m args.params = Except.error e →
      (h w args).result = Except.error e := by
  obtain ⟨m', hm', he⟩ :=
    serverRequestHandlers_spec client getClient server caps (s, h) hmem
  rw [hm] at hm'
  obtain rfl := Option.some.inj hm'
  subst he
  exact fun w args e herr => herr

/-- Claim C4 witness: with an upstream whose `callTool` rejects with
"upstream boom", the wired call-tool handler's result is that exact
rejection. -/
theorem proxyServer_error_propagation_witness :
    (fwdHandler clientErr (none : Option (Unit → Option (MCPClient Nat Nat String)))
        UpMethod.callTool () ⟨7⟩).result = Except.error "upstream boom" :=
  proxyServer_error_propagation clientErr none serverW capsFull
    Schema.callToolRequest _ (by simp [proxyServer, capsFull, hasPrompts, hasTools, resourcesCap])
    UpMethod.callTool rfl () ⟨7⟩ "upstream boom" rfl

/-- Claim C7: `getCurrentClient` re-resolves the upstream at every call:
with no resolver, or a resolver answering falsy at this invocation, the
original `client` is used; otherwise the resolver's current answer is
used; and every handler `proxyServer` registers (request or notification,
on the downstream side) targets exactly the client resolved at its own
invocation time. -/
theorem getCurrentClient_call_time_resolution {W P R E : Type} :
    (∀ (client : MCPClient P R E) (w : W), getCurrentClient client none w = client) ∧
    (∀ (client : MCPClient P R E) (f : W → Option (MCPClient P R E)) (w : W),
      f w = none → getCurrentClient client (some f) w = client) ∧
    (∀ (client : MCPClient P R E) (f : W → Option (MCPClient P R E)) (w : W)
      (c : MCPClient P R E), f w = some c → getCurrentClient client (some f) w = c) ∧
    (∀ (client : MCPClient P R E) (getClient : Option (W → Option (MCPClient P R E)))
      (server : MCPServer P R E) (caps : Option ServerCapabilities),
      ∀ x ∈ (proxyServer client getClient server caps).serverRequestHandlers,
      ∀ (w : W) (args : ReqArgs P),
        (x.2 w args).calls.map Invocation.target = [getCurrentClient client getClient w]) ∧
    (∀ (client : MCPClient P R E) (getClient : Option (W → Option (MCPClient P R E)))
      (server : MCPServer P R E) (caps : Option ServerCapabilities),
      ∀ x ∈ (proxyServer client getClient server caps).serverNotificationHandlers,
      ∀ (w : W) (args : P),
        (x.2 w args).calls.map Invocation.target = [getCurrentClient client getClient w]) := by
  refine ⟨fun client w => rfl, ?_, ?_, ?_, ?_⟩
  · intro client f w hf
    simp [getCurrentClient, hf]
  · intro client f w c hf
    simp [getCurrentClient, hf]
  · intro client getClient server caps x hmem w args
    obtain ⟨m, hm, he⟩ := serverRequestHandlers_spec client getClient server caps x hmem
    rw [he]
    rfl
  · intro client getClient server caps x hmem w args
    rw [serverNotificationHandlers_spec client getClient server caps x hmem]
    rfl

/-- Claim C7 witness: at a world where the resolver answers `clientW2`,
the resolved client is `clientW2`; where it answers falsy, or is absent,
the original `clientW` is used; and the complete handler of a nullish
wiring targets the resolved client at its own invocation. -/
theorem getCurrentClient_call_time_resolution_witness :
    getCurrentClient (W := Bool) clientW none true = clientW ∧
    getCurrentClient clientW (some (fun w => if w then some clientW2 else none)) false = clientW ∧
    getCurrentClient clientW (some (fun w => if w then some clientW2 else none)) true = clientW2 ∧
    ((fwdHandler clientW (none : Option (Bool → Option (MCPClient Nat Nat String)))
        UpMethod.complete true ⟨3⟩).calls.map Invocation.target =
      [getCurrentClient clientW none true]) :=
  ⟨(getCurrentClient_call_time_resolution (W := Bool)).1 clientW true,
   (getCurrentClient_call_time_resolution (W := Bool)).2.1 clientW
     (fun w => if w then some clientW2 else none) false rfl,
   (getCurrentClient_call_time_resolution (W := Bool)).2.2.1 clientW
     (fun w => if w then some clientW2 else none) true clientW2 rfl,
   (getCurrentClient_call_time_resolution (W := Bool)).2.2.2.1 clientW none serverW none
     (Schema.completeRequest, fwdHandler clientW none UpMethod.complete)
     (by simp [proxyServer, hasPrompts, hasTools, resourcesCap]) true ⟨3⟩⟩

/-- Claim C10: a nullish capability descriptor wires exactly one handler —
the downstream complete request handler — and no notification handler on
either side; the guarded `resources.subscribe` access is never reached
(the model's `resourcesCap` of a nullish descriptor is `none`, so the
subscribe branch is not taken and nothing throws: the wiring is total). -/
theorem proxyServer_nullish_capabilities {W P R E : Type} (client : MCPClient P R E)
    (getClient : Option (W → Option (MCPClient P R E))) (server : MCPServer P R E) :
    proxyServer client getClient server none =
      { serverRequestHandlers :=
          [(Schema.completeRequest, fwdHandler client getClient UpMethod.complete)],
        serverNotificationHandlers := [],
        clientNotificationHandlers := [] } := rfl

/-- Claim C5: identity resolution is total and recovers every failure mode
locally with the default identity: unavailable parent pid, thrown lookup,
process not found, depth bound exceeded, intermediary without parent, and
thrown identification/extraction — none propagates. -/
theorem extractClientInfoFromParent_never_throws (pn pv : String) :
    (∀ lookup identify,
      extractClientInfoFromParent pn pv lookup identify 0 = defaultIdentity pn pv) ∧
    (∀ lookup identify pid depth e, lookup pid = Except.error e →
      findRealClient pn pv lookup identify pid depth = defaultIdentity pn pv) ∧
    (∀ lookup identify pid depth, lookup pid = Except.ok [] →
      findRealClient pn pv lookup identify pid depth = defaultIdentity pn pv) ∧
    (∀ lookup identify pid depth, MAX_DEPTH ≤ depth →
      findRealClient pn pv lookup identify pid depth = defaultIdentity pn pv) ∧
    (∀ lookup identify pid depth p l, lookup pid = Except.ok (p :: l) →
      isIntermediaryProcess p = true → p.ppid = 0 →
      findRealClient pn pv lookup identify pid depth = defaultIdentity pn pv) ∧
    (∀ lookup identify pid depth p l e, lookup pid = Except.ok (p :: l) →
      isIntermediaryProcess p = false → identify p = Except.error e →
      findRealClient pn pv lookup identify pid depth = defaultIdentity pn pv) := by
  refine ⟨fun lookup identify => rfl, ?_, ?_, ?_, ?_, ?_⟩
  · intro lookup identify pid depth e hl
    rw [findRealClient]
    split
    · rfl
    · simp [hl]
  · intro lookup identify pid depth hl
    rw [findRealClient]
    split
    · rfl
    · simp [hl]
  · intro lookup identify pid depth hd
    rw [findRealClient]
    simp [hd]
  · intro lookup identify pid depth p l hl hint hpp
    rw [findRealClient]
    split
    · rfl
    · simp [hl, hint, hpp]
  · intro lookup identify pid depth p l e hl hint hid
    rw [findRealClient]
    split
    · rfl
    · simp [hl, hint, hid]

/-- Claim C5 witness: each recovery clause at a concrete behaviour. -/
theorem extractClientInfoFromParent_never_throws_witness :
    extractClientInfoFromParent "proxy" "1.0.0" lookupThrow identifyThrow 0 =
      defaultIdentity "proxy" "1.0.0" ∧
    findRealClient "proxy" "1.0.0" lookupThrow identifyThrow 7 0 =
      defaultIdentity "proxy" "1.0.0" ∧
    findRealClient "proxy" "1.0.0" lookupEmpty identifyThrow 7 0 =
      defaultIdentity "proxy" "1.0.0" ∧
    findRealClient "proxy" "1.0.0" lookupCyc identifyThrow 41 5 =
      defaultIdentity "proxy" "1.0.0" ∧
    findRealClient "proxy" "1.0.0" lookupNoParent identifyThrow 9 0 =
      defaultIdentity "proxy" "1.0.0" ∧
    findRealClient "proxy" "1.0.0" lookupApp identifyThrow 7 0 =
      defaultIdentity "proxy" "1.0.0" :=
  ⟨(extractClientInfoFromParent_never_throws "proxy" "1.0.0").1 lookupThrow identifyThrow,
   (extractClientInfoFromParent_never_throws "proxy" "1.0.0").2.1 lookupThrow identifyThrow
     7 0 "lookup boom" rfl,
   (extractClientInfoFromParent_never_throws "proxy" "1.0.0").2.2.1 lookupEmpty identifyThrow
     7 0 rfl,
   (extractClientInfoFromParent_never_throws "proxy" "1.0.0").2.2.2.1 lookupCyc identifyThrow
     41 5 (by decide),
   (extractClientInfoFromParent_never_throws "proxy" "1.0.0").2.2.2.2.1 lookupNoParent
     identifyThrow 9 0 ⟨"npm exec foo", "npm", 9, 0⟩ [] rfl (by decide) rfl,
   (extractClientInfoFromParent_never_throws "proxy" "1.0.0").2.2.2.2.2 lookupApp
     identifyThrow 7 0 procApp [] "identify boom" rfl (by decide) rfl⟩

/-- Claim C6: the walk terminates on every process tree, cyclic chains
included: from depth 0 it performs at most 5 lookups; reaching the depth
bound returns the default identity; and each intermediary step recurses at
the parent pid with depth increased by exactly one. -/
theorem findRealClient_terminates_bounded (pn pv : String)
    (lookup : Nat → Except String (List ProcessInfo))
    (identify : ProcessInfo → Except String ClientInfo) (pid : Nat) :
    findRealClientLookups lookup pid 0 ≤ 5 ∧
    (∀ depth, MAX_DEPTH ≤ depth →
      findRealClient pn pv lookup identify pid depth = defaultIdentity pn pv) ∧
    (∀ depth p l, depth < MAX_DEPTH → lookup pid = Except.ok (p :: l) →
      isIntermediaryProcess p = true → p.ppid ≠ 0 →
      findRealClient pn pv lookup identify pid depth =
        findRealClient pn pv lookup identify p.ppid (depth + 1)) := by
  refine ⟨?_, ?_, ?_⟩
  · have hb := findRealClientLookups_le lookup MAX_DEPTH pid 0 (by omega)
    calc findRealClientLookups lookup pid 0 ≤ MAX_DEPTH - 0 := hb
    _ ≤ 5 := by simp [MAX_DEPTH]
  · intro depth hd
    rw [findRealClient]
    simp [hd]
  · intro depth p l hdep hl hint hpp
    rw [findRealClient]
    split
    · omega
    · simp [hl, hint, hpp]

/-- Claim C6 witness: on the cyclic chain where every pid resolves to an
`npm` record whose parent is itself, the walk from depth 0 does at most 5
lookups, one intermediary step recurses with depth 1, and depth 5 stops
with the default identity. -/
theorem findRealClient_terminates_bounded_witness :
    findRealClientLookups lookupCyc 41 0 ≤ 5 ∧
    findRealClient "proxy" "1.0.0" lookupCyc identifyThrow 41 5 =
      defaultIdentity "proxy" "1.0.0" ∧
    findRealClient "proxy" "1.0.0" lookupCyc identifyThrow 41 0 =
      findRealClient "proxy" "1.0.0" lookupCyc identifyThrow procNpmCyc.ppid (0 + 1) :=
  ⟨(findRealClient_terminates_bounded "proxy" "1.0.0" lookupCyc identifyThrow 41).1,
   (findRealClient_terminates_bounded "proxy" "1.0.0" lookupCyc identifyThrow 41).2.1
     5 (by decide),
   (findRealClient_terminates_bounded "proxy" "1.0.0" lookupCyc identifyThrow 41).2.2
     0 procNpmCyc [] (by decide) rfl (by decide) (by decide)⟩

/-- Claim C8: `extractVersion` is total (the embedding returns a result for
every platform and collaborator behaviour, a thrown strategy being caught
into a fallback result), and every platform other than darwin/win32/linux
immediately yields `{source: "fallback", error: "Unsupported platform:
<platform>"}` with no version. -/
theorem extractVersion_unsupported_platform :
    (∀ (platform : String) mac win lin,
      platform ≠ "darwin" → platform ≠ "win32" → platform ≠ "linux" →
      extractVersion platform mac win lin =
        { source := VersionSource.fallback,
          error := some ("Unsupported platform: " ++ platform),
          version := none }) ∧
    (∀ mac win lin e, mac = Except.error e →
      extractVersion "darwin" mac win lin =
        { source := VersionSource.fallback, error := some e, version := none }) ∧
    (∀ mac win lin e, win = Except.error e →
      extractVersion "win32" mac win lin =
        { source := VersionSource.fallback, error := some e, version := none }) ∧
    (∀ mac win lin e, lin = Except.error e →
      extractVersion "linux" mac win lin =
        { source := VersionSource.fallback, error := some e, version := none }) := by
  refine ⟨?_, ?_, ?_, ?_⟩
  · intro platform mac win lin h1 h2 h3
    simp [extractVersion, h1, h2, h3]
  · intro mac win lin e hm
    simp [extractVersion, hm]
  · intro mac win lin e hm
    simp [extractVersion, hm]
  · intro mac win lin e hm
    simp [extractVersion, hm]

/-- Claim C8 witness: the unsupported platform "freebsd", and a throwing
strategy on each supported platform. -/
theorem extractVersion_unsupported_platform_witness :
    extractVersion "freebsd" (Except.error "a") (Except.error "b") (Except.error "c") =
      { source := VersionSource.fallback,
        error := some ("Unsupported platform: " ++ "freebsd"),
        version := none } ∧
    extractVersion "darwin" (Except.error "mac boom") (Except.error "b") (Except.error "c") =
      { source := VersionSource.fallback, error := some "mac boom", version := none } ∧
    extractVersion "win32" (Except.error "a") (Except.error "win boom") (Except.error "c") =
      { source := VersionSource.fallback, error := some "win boom", version := none } ∧
    extractVersion "linux" (Except.error "a") (Except.error "b") (Except.error "lin boom") =
      { source := VersionSource.fallback, error := some "lin boom", version := none } :=
  ⟨extractVersion_unsupported_platform.1 "freebsd" (Except.error "a") (Except.error "b")
     (Except.error "c") (by decide) (by decide) (by decide),
   extractVersion_unsupported_platform.2.1 (Except.error "mac boom") (Except.error "b")
     (Except.error "c") "mac boom" rfl,
   extractVersion_unsupported_platform.2.2.1 (Except.error "a") (Except.error "win boom")
     (Except.error "c") "win boom" rfl,
   extractVersion_unsupported_platform.2.2.2 (Except.error "a") (Except.error "b")
     (Except.error "lin boom") "lin boom" rfl⟩

/-- Claim C9: `extractVersionFromCommand` tries its four patterns in the
declared order and returns the first captured version, or none when no
pattern matches; on "app --version=2.4.6" it yields "2.4.6", on
"app -v 3.1.4" it yields "3.1.4", and on an input with no recognizable
version pattern it yields no match. -/
theorem extractVersionFromCommand_pattern_order :
    (∀ (cmd : String) v, litSepSemver ("--version".data) eqWsSep cmd.data = some v →
      extractVersionFromCommand cmd = some (String.mk v)) ∧
    (∀ (cmd : String) v, litSepSemver ("--version".data) eqWsSep cmd.data = none →
      litSepSemver ("-v".data) eqWsSep cmd.data = some v →
      extractVersionFromCommand cmd = some (String.mk v)) ∧
    (∀ (cmd : String) v, litSepSemver ("--version".data) eqWsSep cmd.data = none →
      litSepSemver ("-v".data) eqWsSep cmd.data = none →
      litSepSemver ("version".data) eqColonWsSep cmd.data = some v →
      extractVersionFromCommand cmd = some (String.mk v)) ∧
    (∀ (cmd : String) v, litSepSemver ("--version".data) eqWsSep cmd.data = none →
      litSepSemver ("-v".data) eqWsSep cmd.data = none →
      litSepSemver ("version".data) eqColonWsSep cmd.data = none →
      findBareSemver cmd.data = some v →
      extractVersionFromCommand cmd = some (String.mk v)) ∧
    (∀ (cmd : String), litSepSemver ("--version".data) eqWsSep cmd.data = none →
      litSepSemver ("-v".data) eqWsSep cmd.data = none →
      litSepSemver ("version".data) eqColonWsSep cmd.data = none →
      findBareSemver cmd.data = none →
      extractVersionFromCommand cmd = none) ∧
    extractVersionFromCommand "app --version=2.4.6" = some "2.4.6" ∧
    extractVersionFromCommand "app -v 3.1.4" = some "3.1.4" ∧
    extractVersionFromCommand "app run" = none := by
  refine ⟨?_, ?_, ?_, ?_, ?_, rfl, rfl, rfl⟩
  · intro cmd v h1
    simp [extractVersionFromCommand, h1]
  · intro cmd v h1 h2
    simp [extractVersionFromCommand, h1, h2]
  · intro cmd v h1 h2 h3
    simp [extractVersionFromCommand, h1, h2, h3]
  · intro cmd v h1 h2 h3 h4
    simp [extractVersionFromCommand, h1, h2, h3, h4]
  · intro cmd h1 h2 h3 h4
    simp [extractVersionFromCommand, h1, h2, h3, h4]

/-- Claim C9 witness: the ordering clauses applied at the concrete inputs
of the claim (first pattern for "--version=2.4.6", second pattern after
the first fails for "-v 3.1.4", and the all-fail clause for "app run"). -/
theorem extractVersionFromCommand_pattern_order_witness :
    extractVersionFromCommand "app --version=2.4.6" =
      some (String.mk ['2', '.', '4', '.', '6']) ∧
    extractVersionFromCommand "app -v 3.1.4" =
      some (String.mk ['3', '.', '1', '.', '4']) ∧
    extractVersionFromCommand "app run" = none :=
  ⟨extractVersionFromCommand_pattern_order.1 "app --version=2.4.6"
     ['2', '.', '4', '.', '6'] rfl,
   extractVersionFromCommand_pattern_order.2.1 "app -v 3.1.4"
     ['3', '.', '1', '.', '4'] rfl rfl,
   extractVersionFromCommand_pattern_order.2.2.2.2.1 "app run" rfl rfl rfl rfl⟩

end JobsMcpProxy
